import Mathlib

/-!
Verification of the admission-control and result-caching core of the
`rethinking-park-cf-worker` repository.

The TypeScript sources are shallowly embedded:
* byte buffers (`ArrayBuffer` / `Uint8Array`) become `List Nat` with each
  element intended `< 256`;
* the Cloudflare KV store becomes an association list together with boolean
  fault flags (a `true` flag means the corresponding store operation throws,
  which in the source is caught by the surrounding `try`/`catch`);
* `Date.now()` becomes an explicit `now : Nat` parameter (milliseconds);
* JavaScript numbers in the detection-normalization code become `ℚ`;
* fallible paths are made explicit with `Option`.
-/

namespace Spec2Proof

/-! ## Rate limiter (`src/unnamed/part_003`, `checkRateLimit`) -/

namespace RL

/-- `RATE_LIMIT_CONFIG` shape: `requests` per `window` (seconds), and a
`blockDuration` (seconds) applied after the ceiling is exceeded. -/
structure RateLimitConfig where
  requests : Nat
  window : Nat
  blockDuration : Nat
  deriving Repr, DecidableEq

/-- The concrete configuration object of the source file. -/
def RATE_LIMIT_CONFIG : RateLimitConfig :=
  { requests := 100, window := 3600, blockDuration := 1800 }

/-- The JSON block record written under `blocked:{ip}`.  The source also
stores a constant `reason: 'rate_limit_exceeded'` field. -/
structure BlockData where
  blockedAt : Nat
  unblockTime : Nat
  reason : String
  deriving Repr, DecidableEq

/-- State of the `RATE_LIMIT_KV` namespace.  Counter values are written by the
source as decimal strings and re-read with `parseInt`; that round trip is the
identity, so counters are stored here directly as `Nat`.  The `…Fails` flags
model the corresponding KV operation throwing (network/store failure); TTL
expiry of entries is outside the claims modelled here. -/
structure KVState where
  counters : List ((String × Nat) × Nat)
  blocks : List (String × BlockData)
  getBlockFails : Bool
  deleteFails : Bool
  getCountFails : Bool
  putFails : Bool
  deriving Repr, DecidableEq

/-- The `Env` binding as the rate limiter sees it: `RATE_LIMIT_KV?` may be
absent. -/
structure Env where
  rateLimitKV : Option KVState
  deriving Repr, DecidableEq

/-- Return shape of `checkRateLimit`. -/
structure RateLimitResult where
  allowed : Bool
  remaining : Nat
  resetTime : Nat
  deriving Repr, DecidableEq

/-- `Math.floor(now / (window*1000)) * (window*1000)`. -/
def windowStartOf (cfg : RateLimitConfig) (now : Nat) : Nat :=
  now / (cfg.window * 1000) * (cfg.window * 1000)

/-- KV `put` overwrite semantics on an association list. -/
def alPut {α β : Type} [BEq α] (l : List (α × β)) (k : α) (v : β) : List (α × β) :=
  (k, v) :: l.filter (fun p => !(p.1 == k))

/-- KV `delete` semantics on an association list. -/
def alDel {α β : Type} [BEq α] (l : List (α × β)) (k : α) : List (α × β) :=
  l.filter (fun p => !(p.1 == k))

/-- Embedding of `checkRateLimit(ip, env)` from `src/unnamed/part_003`.

The first `try`/`catch` (block-status check) is modelled by `getBlockFails` /
`deleteFails`: a thrown error there is logged and control falls through to the
counter phase.  The second `try`/`catch` (counter read, block put, counter put)
fails open, returning `allowed: true` with the full quota. -/
def checkRateLimit (cfg : RateLimitConfig) (ip : String) (now : Nat) (env : Env) :
    RateLimitResult × Env :=
  match env.rateLimitKV with
  | none =>
    -- KV not configured: allow all requests.
    ({ allowed := true, remaining := cfg.requests, resetTime := now + cfg.window * 1000 }, env)
  | some kv =>
    let windowStart := windowStartOf cfg now
    -- Phase 1: `try { blocked check } catch { log }`
    let blockPhase : Option RateLimitResult × KVState :=
      if kv.getBlockFails then
        (none, kv)
      else
        match kv.blocks.lookup ip with
        | some bd =>
          if now < bd.unblockTime then
            (some { allowed := false, remaining := 0, resetTime := bd.unblockTime }, kv)
          else if kv.deleteFails then
            (none, kv)
          else
            (none, { kv with blocks := alDel kv.blocks ip })
        | none => (none, kv)
    match blockPhase with
    | (some r, kv1) => (r, { rateLimitKV := some kv1 })
    | (none, kv1) =>
      -- Phase 2: `try { counter check } catch { fail open }`
      if kv1.getCountFails then
        ({ allowed := true, remaining := cfg.requests, resetTime := now + cfg.window * 1000 },
         { rateLimitKV := some kv1 })
      else
        let count := ((kv1.counters.lookup (ip, windowStart)).getD 0)
        if cfg.requests ≤ count then
          if kv1.putFails then
            ({ allowed := true, remaining := cfg.requests, resetTime := now + cfg.window * 1000 },
             { rateLimitKV := some kv1 })
          else
            let bd : BlockData :=
              { blockedAt := now, unblockTime := now + cfg.blockDuration * 1000,
                reason := "rate_limit_exceeded" }
            ({ allowed := false, remaining := 0, resetTime := bd.unblockTime },
             { rateLimitKV := some { kv1 with blocks := alPut kv1.blocks ip bd } })
        else
          if kv1.putFails then
            ({ allowed := true, remaining := cfg.requests, resetTime := now + cfg.window * 1000 },
             { rateLimitKV := some kv1 })
          else
            ({ allowed := true, remaining := cfg.requests - count - 1,
               resetTime := windowStart + cfg.window * 1000 },
             { rateLimitKV := some { kv1 with counters := alPut kv1.counters (ip, windowStart) (count + 1) } })

/-- Environment after the first `n` sequential calls at times `t 0, …, t (n-1)`. -/
def runCalls (cfg : RateLimitConfig) (ip : String) (t : Nat → Nat) : Nat → Env → Env
  | 0, env => env
  | n + 1, env => (checkRateLimit cfg ip (t n) (runCalls cfg ip t n env)).2

/-- Result of the `(n+1)`-th sequential call (0-indexed step `n`). -/
def callResult (cfg : RateLimitConfig) (ip : String) (t : Nat → Nat) (env : Env) (n : Nat) :
    RateLimitResult :=
  (checkRateLimit cfg ip (t n) (runCalls cfg ip t n env)).1

end RL

/-! ## Content hash (`src/unnamed/part_004`, `calculateImageHash`)

`crypto.subtle.digest('SHA-256', …)` is embedded as an executable SHA-256
over byte lists (`Nat` words with explicit `% 2^32`). -/

namespace Hash

/-- 32-bit truncation. -/
def mask32 (x : Nat) : Nat := x % 4294967296

/-- Right rotation of a 32-bit word. -/
def rotr (n x : Nat) : Nat := mask32 ((x >>> n) ||| (x <<< (32 - n)))

/-- Bitwise complement of a 32-bit word. -/
def not32 (x : Nat) : Nat := 4294967295 ^^^ x

/-- The SHA-256 round constants. -/
def K : List Nat :=
  [1116352408, 1899447441, 3049323471, 3921009573, 961987163,
   1508970993, 2453635748, 2870763221, 3624381080, 310598401,
   607225278, 1426881987, 1925078388, 2162078206, 2614888103,
   3248222580, 3835390401, 4022224774, 264347078, 604807628,
   770255983, 1249150122, 1555081692, 1996064986, 2554220882,
   2821834349, 2952996808, 3210313671, 3336571891, 3584528711,
   113926993, 338241895, 666307205, 773529912, 1294757372,
   1396182291, 1695183700, 1986661051, 2177026350, 2456956037,
   2730485921, 2820302411, 3259730800, 3345764771, 3516065817,
   3600352804, 4094571909, 275423344, 430227734, 506948616,
   659060556, 883997877, 958139571, 1322822218, 1537002063,
   1747873779, 1955562222, 2024104815, 2227730452, 2361852424,
   2428436474, 2756734187, 3204031479, 3329325298]

/-- Big-endian serialization of a 32-bit word into 4 bytes. -/
def toBytesBE (w : Nat) : List Nat :=
  [w / 16777216 % 256, w / 65536 % 256, w / 256 % 256, w % 256]

/-- Big-endian serialization of a 64-bit quantity into 8 bytes. -/
def toBytes64BE (w : Nat) : List Nat :=
  [w / 72057594037927936 % 256, w / 281474976710656 % 256,
   w / 1099511627776 % 256, w / 4294967296 % 256,
   w / 16777216 % 256, w / 65536 % 256, w / 256 % 256, w % 256]

/-- Group bytes into big-endian 32-bit words. -/
def toWordsBE : List Nat → List Nat
  | b0 :: b1 :: b2 :: b3 :: rest =>
    (b0 * 16777216 + b1 * 65536 + b2 * 256 + b3) :: toWordsBE rest
  | _ => []

/-- One extension step of the message schedule; `ws` holds the words produced
so far, most recent first, so `w[i-2], w[i-7], w[i-15], w[i-16]` sit at
positions 1, 6, 14, 15. -/
def extendStep (ws : List Nat) : List Nat :=
  let w15 := ws.getD 14 0
  let s0 := (rotr 7 w15) ^^^ ((rotr 18 w15) ^^^ (w15 >>> 3))
  let w2 := ws.getD 1 0
  let s1 := (rotr 17 w2) ^^^ ((rotr 19 w2) ^^^ (w2 >>> 10))
  mask32 (ws.getD 15 0 + s0 + ws.getD 6 0 + s1) :: ws

/-- The 64-word message schedule built from the 16 chunk words. -/
def schedule (w16 : List Nat) : List Nat :=
  ((List.range 48).foldl (fun ws _ => extendStep ws) w16.reverse).reverse

/-- The eight working variables of the compression function. -/
structure Hstate where
  a : Nat
  b : Nat
  c : Nat
  d : Nat
  e : Nat
  f : Nat
  g : Nat
  h : Nat
  deriving Repr, DecidableEq

/-- The SHA-256 initial hash value. -/
def initH : Hstate :=
  ⟨1779033703, 3144134277, 1013904242, 2773480762,
   1359893119, 2600822924, 528734635, 1541459225⟩

/-- One round of the compression function, consuming a constant/schedule pair. -/
def round (st : Hstate) (kw : Nat × Nat) : Hstate :=
  let S1 := (rotr 6 st.e) ^^^ ((rotr 11 st.e) ^^^ (rotr 25 st.e))
  let ch := (st.e &&& st.f) ^^^ ((not32 st.e) &&& st.g)
  let temp1 := mask32 (st.h + S1 + ch + kw.1 + kw.2)
  let S0 := (rotr 2 st.a) ^^^ ((rotr 13 st.a) ^^^ (rotr 22 st.a))
  let maj := (st.a &&& st.b) ^^^ ((st.a &&& st.c) ^^^ (st.b &&& st.c))
  let temp2 := mask32 (S0 + maj)
  ⟨mask32 (temp1 + temp2), st.a, st.b, st.c, mask32 (st.d + temp1), st.e, st.f, st.g⟩

/-- Compress one 64-byte chunk into the running hash state. -/
def compressChunk (st : Hstate) (chunk : List Nat) : Hstate :=
  let w := schedule (toWordsBE chunk)
  let t := (K.zip w).foldl round st
  ⟨mask32 (st.a + t.a), mask32 (st.b + t.b), mask32 (st.c + t.c), mask32 (st.d + t.d),
   mask32 (st.e + t.e), mask32 (st.f + t.f), mask32 (st.g + t.g), mask32 (st.h + t.h)⟩

/-- Split a byte list into 64-byte chunks (structurally recursive via a fuel
argument bounded by the list length, so that it reduces in the kernel). -/
def chunks64Aux : Nat → List Nat → List (List Nat)
  | 0, _ => []
  | _, [] => []
  | fuel + 1, x :: xs => ((x :: xs).take 64) :: chunks64Aux fuel ((x :: xs).drop 64)

/-- Split a byte list into 64-byte chunks. -/
def chunks64 (l : List Nat) : List (List Nat) := chunks64Aux l.length l

/-- Number of zero pad bytes so the padded length is ≡ 0 (mod 64). -/
def padZeros (len : Nat) : Nat := (120 - (len + 1) % 64) % 64

/-- SHA-256 padding: `0x80`, zeros, then the bit length as 64-bit big-endian. -/
def padMessage (msg : List Nat) : List Nat :=
  msg ++ 0x80 :: List.replicate (padZeros msg.length) 0 ++ toBytes64BE (8 * msg.length)

/-- Serialize the final state as 32 big-endian bytes. -/
def digestBytes (st : Hstate) : List Nat :=
  toBytesBE st.a ++ toBytesBE st.b ++ toBytesBE st.c ++ toBytesBE st.d ++
  toBytesBE st.e ++ toBytesBE st.f ++ toBytesBE st.g ++ toBytesBE st.h

/-- SHA-256 of a byte list, as 32 bytes. -/
def sha256 (msg : List Nat) : List Nat :=
  digestBytes ((chunks64 (padMessage msg)).foldl compressChunk initH)

/-- One lowercase hex digit. -/
def hexDigitChar (n : Nat) : Char :=
  if n < 10 then Char.ofNat (48 + n) else Char.ofNat (87 + n)

/-- `b.toString(16).padStart(2, '0')` for a byte `b < 256`: exactly two
lowercase hex digits. -/
def hexByteChars (b : Nat) : List Char :=
  [hexDigitChar (b / 16), hexDigitChar (b % 16)]

/-- `Array.from(bytes).map(b => b.toString(16).padStart(2, '0')).join('')`. -/
def hexEncode (l : List Nat) : String :=
  ⟨l.flatMap hexByteChars⟩

/-- `new DataView(…).setUint32(0, byteLength, false)`: the length truncated to
32 bits, big-endian. -/
def sizeBytesOf (len : Nat) : List Nat := toBytesBE (mask32 len)

/-- Embedding of `calculateImageHash(imageData)` from `src/unnamed/part_004`:
hash the content, append the 4-byte big-endian length, hash again, hex-encode. -/
def calculateImageHash (imageData : List Nat) : String :=
  let contentArray := sha256 imageData
  let sizeBytes := sizeBytesOf imageData.length
  let combinedData := contentArray ++ sizeBytes
  let finalArray := sha256 combinedData
  hexEncode finalArray

end Hash

/-- The ContentKey exactly as §4.1 of the spec words it: compute a 256-bit
digest of the bytes, append a 4-byte big-endian encoding of the length,
digest the concatenation, hex-encode the result. -/
def specContentKey (bytes : List Nat) : String :=
  Hash.hexEncode (Hash.sha256 (Hash.sha256 bytes ++ Hash.sizeBytesOf bytes.length))

/-! ## Image sniffer (`src/unnamed/part_004`, `getImageDimensions`)

`DataView.getUintN` throws a `RangeError` on an out-of-bounds read; the
surrounding `try`/`catch` then produces the fallback.  The thrown path is
modelled by the outer `Option` of `sniffCore` (`none` = exception caught);
the inner `Option` is `none` when no recognized signature matched.  Note that
`view.getUint16(off)` with no endianness argument is a **big-endian** read. -/

namespace Img

/-- `view.getUint8(i)`: `none` models the thrown `RangeError`. -/
def getUint8? (b : List Nat) (i : Nat) : Option Nat := b.get? i

/-- `view.getUint16(i)` (big-endian, the `DataView` default). -/
def getUint16? (b : List Nat) (i : Nat) : Option Nat := do
  let x0 ← b.get? i
  let x1 ← b.get? (i + 1)
  pure (x0 * 256 + x1)

/-- `view.getUint32(i)` (big-endian, the `DataView` default). -/
def getUint32? (b : List Nat) (i : Nat) : Option Nat := do
  let x0 ← b.get? i
  let x1 ← b.get? (i + 1)
  let x2 ← b.get? (i + 2)
  let x3 ← b.get? (i + 3)
  pure (x0 * 16777216 + x1 * 65536 + x2 * 256 + x3)

/-- The JPEG `while (offset < bufferSize - 4)` scan for an `FF C0` (SOF0)
marker, fuel-bounded so it reduces in the kernel.  The two guarded `getUint8`
reads are in bounds by the loop condition; the `getUint16` dimension reads can
still run past the end and throw. -/
def findSOF0Aux : Nat → List Nat → Nat → Option (Option (Nat × Nat))
  | 0, _, _ => pure none
  | fuel + 1, b, offset =>
    if offset < b.length - 4 then
      if b.getD offset 0 = 0xFF ∧ b.getD (offset + 1) 0 = 0xC0 then do
        let height ← getUint16? b (offset + 5)
        let width ← getUint16? b (offset + 7)
        pure (some (width, height))
      else
        findSOF0Aux fuel b (offset + 1)
    else
      pure none

/-- The SOF0 scan started with enough fuel for the whole buffer. -/
def findSOF0 (b : List Nat) (offset : Nat) : Option (Option (Nat × Nat)) :=
  findSOF0Aux b.length b offset

/-- The body of `getImageDimensions`: `none` = an exception escaped to the
`catch`; `some none` = fell through with no recognized signature/marker. -/
def sniffCore (b : List Nat) : Option (Option (Nat × Nat)) := do
  let c0 ← getUint32? b 0
  let pngSig ←
    if c0 = 0x89504E47 then do
      let c4 ← getUint32? b 4
      pure (decide (c4 = 0x0D0A1A0A))
    else
      pure false
  if pngSig = true then do
    let width ← getUint32? b 16
    let height ← getUint32? b 20
    pure (some (width, height))
  else do
    let b0 ← getUint8? b 0
    let jpegSig ←
      if b0 = 0xFF then do
        let b1 ← getUint8? b 1
        if b1 = 0xD8 then do
          let b2 ← getUint8? b 2
          pure (decide (b2 = 0xFF))
        else
          pure false
      else
        pure false
    let jres ← if jpegSig = true then findSOF0 b 2 else pure none
    match jres with
    | some wh => pure (some wh)
    | none => do
      let webpSig ←
        if c0 = 0x52494646 then do
          let c8 ← getUint32? b 8
          pure (decide (c8 = 0x57454250))
        else
          pure false
      if webpSig = true then do
        let c12 ← getUint32? b 12
        if c12 = 0x56503820 then do
          let w16 ← getUint16? b 26
          let h16 ← getUint16? b 28
          pure (some ((w16 &&& 0x3FFF) + 1, (h16 &&& 0x3FFF) + 1))
        else
          pure none
      else
        pure none

/-- Embedding of `getImageDimensions(imageBuffer)`: any escaped exception or
unrecognized container yields the fallback `(800, 600)`. -/
def getImageDimensions (b : List Nat) : Nat × Nat :=
  match sniffCore b with
  | some (some wh) => wh
  | _ => (800, 600)

/-- Modelled from the claim's words (C5): a *little-endian* 16-bit read of
the WebP dimension field at offset `i`. -/
def claimLE16 (b : List Nat) (i : Nat) : Nat := b.getD i 0 + b.getD (i + 1) 0 * 256

end Img

/-! ## AI service pure fragments (`src/src/services/ai.ts`)

The Replicate network calls are external collaborators; what is embedded is
the pure post-processing: format detection, bounding-box normalization and
validation, the whole-image fallback, and the stored image metadata. -/

namespace AI

/-- Normalized bounding box, `{x, y, width, height}`. -/
structure BBox where
  x : ℚ
  y : ℚ
  width : ℚ
  height : ℚ
  deriving DecidableEq, Repr

/-- `DetectedElement` (`src/unnamed/part_006`).  The optional `description`
display string (confidence percentage formatted with `toFixed(1)`) is
presentation-only and not modelled. -/
structure DetectedElement where
  type : String
  confidence : ℚ
  bbox : BBox
  deriving DecidableEq, Repr

/-- One raw YOLO-World detection: pixel corner coordinates plus score/class. -/
structure YoloWorldDetection where
  x0 : ℚ
  y0 : ℚ
  x1 : ℚ
  y1 : ℚ
  score : ℚ
  cls : String
  deriving DecidableEq, Repr

/-- Pixel-to-normalized conversion (ai.ts lines 144–149). -/
def normalizeBBox (width height : Nat) (d : YoloWorldDetection) : BBox :=
  { x := d.x0 / width, y := d.y0 / height,
    width := (d.x1 - d.x0) / width, height := (d.y1 - d.y0) / height }

/-- The validation predicate of ai.ts lines 152–153. -/
def validBBox (b : BBox) : Bool :=
  decide (0 ≤ b.x) && decide (0 ≤ b.y) && decide (0 < b.width) && decide (0 < b.height) &&
  decide (b.x + b.width ≤ 1) && decide (b.y + b.height ≤ 1)

/-- The whole-image fallback detection (ai.ts lines 181–186). -/
def fallbackElement : DetectedElement :=
  { type := "scene", confidence := 1/2, bbox := ⟨0, 0, 1, 1⟩ }

/-- The detection loop of `analyzeImageWithAI` (ai.ts lines 137–170):
normalize each raw detection and keep it only if its bbox validates. -/
def collectElements (width height : Nat) (dets : List YoloWorldDetection) :
    List DetectedElement :=
  dets.foldl (fun acc d =>
    let bbox := normalizeBBox width height d
    if validBBox bbox then
      acc ++ [{ type := d.cls, confidence := d.score, bbox := bbox }]
    else
      acc) []

/-- Lines 179–187: substitute the whole-image fallback when no valid
detection survived. -/
def elementsWithFallback (width height : Nat) (dets : List YoloWorldDetection) :
    List DetectedElement :=
  let elements := collectElements width height dets
  if elements.isEmpty then [fallbackElement] else elements

/-- `detectImageFormat(buffer)` (ai.ts lines 316–337): signature sniffing on a
`Uint8Array` with explicit length guards, defaulting to `'image/jpeg'`. -/
def detectImageFormat (b : List Nat) : String :=
  if 4 ≤ b.length ∧ b.getD 0 0 = 0x89 ∧ b.getD 1 0 = 0x50 ∧
      b.getD 2 0 = 0x4E ∧ b.getD 3 0 = 0x47 then
    "image/png"
  else if 3 ≤ b.length ∧ b.getD 0 0 = 0xFF ∧ b.getD 1 0 = 0xD8 ∧ b.getD 2 0 = 0xFF then
    "image/jpeg"
  else if 12 ≤ b.length ∧ b.getD 0 0 = 0x52 ∧ b.getD 1 0 = 0x49 ∧
      b.getD 2 0 = 0x46 ∧ b.getD 3 0 = 0x46 ∧ b.getD 8 0 = 0x57 ∧
      b.getD 9 0 = 0x45 ∧ b.getD 10 0 = 0x42 ∧ b.getD 11 0 = 0x50 then
    "image/webp"
  else
    "image/jpeg"

/-- The stored image metadata record. -/
structure ImageInfo where
  width : Nat
  height : Nat
  format : String
  size : Nat
  deriving DecidableEq, Repr

/-- ai.ts lines 189–194: the `imageInfo` of the analysis result.  Note the
`format` field is the literal `'image/jpeg'`, not the detected format. -/
def buildImageInfo (b : List Nat) : ImageInfo :=
  { width := (Img.getImageDimensions b).1, height := (Img.getImageDimensions b).2,
    format := "image/jpeg", size := b.length }

/-- `AnalysisResult` (`src/src/types/api.ts`). -/
structure AnalysisResult where
  elements : List DetectedElement
  processingTime : String
  timestamp : String
  imageHash : String
  cacheHit : Bool
  imageInfo : ImageInfo
  deriving DecidableEq, Repr

end AI

/-! ## Cache service (`src/src/services/cache.ts`)

Each static method of `CacheService` is embedded over a `CacheEnv` carrying
the optional `IMAGE_CACHE_KV` binding.  Fault flags model the underlying KV
operation throwing; the stored-JSON round trip is the identity, so entries
hold `AnalysisResult` values directly.  `expirationTtl` concerns real-time
expiry and is outside the modelled claims. -/

namespace Cache

/-- The fixed namespace prefix for cache keys. -/
def CACHE_PREFIX : String := "image-analysis:"

/-- State of the `IMAGE_CACHE_KV` binding with its fault flags. -/
structure CacheKV where
  entries : List (String × AI.AnalysisResult)
  getFails : Bool
  putFails : Bool
  deleteFails : Bool
  listFails : Bool
  deriving DecidableEq, Repr

/-- The environment slice the cache service reads. -/
structure CacheEnv where
  CACHE_ENABLED : Option String
  imageCacheKV : Option CacheKV
  deriving DecidableEq, Repr

/-- `formatKey`. -/
def formatKey (key : String) : String := CACHE_PREFIX ++ key

/-- `extractOriginalKey`. -/
def extractOriginalKey (fullKey : String) : String :=
  if fullKey.startsWith CACHE_PREFIX then fullKey.drop CACHE_PREFIX.length else fullKey

/-- The keys currently in the store that carry the cache prefix, in order. -/
def kvKeysWithPrefix (kv : CacheKV) : List String :=
  (kv.entries.map (fun p => p.1)).filter (fun k => k.startsWith CACHE_PREFIX)

/-- The `do … while (cursor)` pagination of `listKeys`, with the platform
page limit of 1000 keys; fuel-bounded so it reduces in the kernel. -/
def listLoopAux : Nat → List String → Nat → List String
  | 0, _, _ => []
  | fuel + 1, ks, cursor =>
    let page := (ks.drop cursor).take 1000
    if cursor + 1000 < ks.length then
      page ++ listLoopAux fuel ks (cursor + 1000)
    else
      page

/-- Collect every page of a key listing. -/
def listLoop (ks : List String) : List String := listLoopAux (ks.length + 1) ks 0

/-- `CacheService.get`. -/
def get (env : CacheEnv) (key : String) : Option AI.AnalysisResult :=
  if env.CACHE_ENABLED = some "false" then none
  else
    match env.imageCacheKV with
    | none => none
    | some kv =>
      if kv.getFails then none
      else kv.entries.lookup (formatKey key)

/-- `CacheService.set`; returns the success flag and the store state. -/
def set (env : CacheEnv) (key : String) (value : AI.AnalysisResult) : Bool × CacheEnv :=
  if env.CACHE_ENABLED = some "false" then (false, env)
  else
    match env.imageCacheKV with
    | none => (false, env)
    | some kv =>
      if kv.putFails then (false, env)
      else
        let kv2 := { kv with entries := RL.alPut kv.entries (formatKey key) value }
        (true, { env with imageCacheKV := some kv2 })

/-- `CacheService.delete`. -/
def delete (env : CacheEnv) (key : String) : Bool × CacheEnv :=
  match env.imageCacheKV with
  | none => (false, env)
  | some kv =>
    if kv.deleteFails then (false, env)
    else
      let kv2 := { kv with entries := RL.alDel kv.entries (formatKey key) }
      (true, { env with imageCacheKV := some kv2 })

/-- `CacheService.listKeys`: a thrown list operation is caught and yields
the empty list. -/
def listKeys (env : CacheEnv) : List String :=
  match env.imageCacheKV with
  | none => []
  | some kv =>
    if kv.listFails then []
    else listLoop (kvKeysWithPrefix kv)

/-- `CacheService.clear`: list (errors absorbed by `listKeys`), then delete
every listed key via `Promise.all`; a throwing delete is caught and yields
`false` with no state change. -/
def clear (env : CacheEnv) : Bool × CacheEnv :=
  match env.imageCacheKV with
  | none => (false, env)
  | some kv =>
    let keys := listKeys env
    if keys.isEmpty then (true, env)
    else if kv.deleteFails then (false, env)
    else
      let kv2 := { kv with entries := kv.entries.filter (fun p => !(keys.contains p.1)) }
      (true, { env with imageCacheKV := some kv2 })

/-- Return shape of `CacheService.getStats`. -/
structure CacheStats where
  size : Nat
  keys : List String
  deriving DecidableEq, Repr

/-- `CacheService.getStats`. -/
def getStats (env : CacheEnv) : CacheStats :=
  match env.imageCacheKV with
  | none => ⟨0, []⟩
  | some _ =>
    let fullKeys := listKeys env
    let keys := fullKeys.map extractOriginalKey
    ⟨keys.length, keys⟩

end Cache

/-! ## Image-analysis handler (`src/src/handlers/imageAnalysis.ts`)

`handleImageAnalysis` is embedded over the parsed form file, the cache
environment, and the outcome of the external inference call; wall-clock
strings are passed in.  Alongside the HTTP outcome and the resulting store
state, the model emits the ordered trace of the hash / cache / inference
work it performed, so frame effects are provable. -/

namespace Handler

/-- The uploaded `File`: its bytes (`size` is their length) and MIME `type`. -/
structure FileModel where
  bytes : List Nat
  mime : String
  deriving DecidableEq, Repr

/-- Return shape of `validateImage`. -/
structure ValidationResult where
  valid : Bool
  error : Option String
  deriving DecidableEq, Repr

/-- The supported MIME types (`src/unnamed/part_004`, `validateImage`). -/
def validTypes : List String := ["image/jpeg", "image/jpg", "image/png", "image/webp"]

/-- Embedding of `validateImage(file, maxSize)`: size ceiling first, then
MIME membership. -/
def validateImage (file : FileModel) (maxSize : Nat) : ValidationResult :=
  if maxSize < file.bytes.length then
    { valid := false,
      error := some ("File size " ++ toString file.bytes.length ++
        " exceeds maximum allowed size of " ++ toString maxSize ++ " bytes") }
  else if !(validTypes.contains file.mime) then
    { valid := false,
      error := some ("Invalid image format: " ++ file.mime ++
        ". Supported formats: JPEG, PNG, WebP") }
  else
    { valid := true, error := none }

/-- Observable side-effecting work of the handler, in order. -/
inductive Effect
  | hashComputed
  | cacheGet
  | cachePut
  | inferenceCall
  deriving DecidableEq, Repr

/-- The HTTP outcome (status code and the `success` flag of the JSON body). -/
structure HandlerOutcome where
  status : Nat
  success : Bool
  deriving DecidableEq, Repr

/-- Embedding of `handleImageAnalysis`: missing file and failed validation
reject with 400 before any hash/cache/inference work; then hash, optional
cache lookup, inference (an `Except.error` models the thrown
`InferenceFailure` reaching the outer catch as a 500), and optional cache
write. -/
def handleImageAnalysis (env : Cache.CacheEnv) (maxSize : Nat)
    (file? : Option FileModel)
    (aiOutcome : Except String (List AI.DetectedElement × AI.ImageInfo))
    (processingTime timestamp : String) :
    HandlerOutcome × Cache.CacheEnv × List Effect :=
  match file? with
  | none => (⟨400, false⟩, env, [])
  | some file =>
    let validation := validateImage file maxSize
    if validation.valid = false then
      (⟨400, false⟩, env, [])
    else
      let imageHash := Hash.calculateImageHash file.bytes
      let analyze : List Effect → HandlerOutcome × Cache.CacheEnv × List Effect :=
        fun effs =>
          match aiOutcome with
          | Except.error _ => (⟨500, false⟩, env, effs ++ [Effect.inferenceCall])
          | Except.ok (elements, info) =>
            let result : AI.AnalysisResult :=
              { elements := elements, processingTime := processingTime,
                timestamp := timestamp, imageHash := imageHash,
                cacheHit := false, imageInfo := info }
            if env.CACHE_ENABLED = some "false" then
              (⟨200, true⟩, env, effs ++ [Effect.inferenceCall])
            else
              let envAfter := (Cache.set env imageHash result).2
              (⟨200, true⟩, envAfter, effs ++ [Effect.inferenceCall, Effect.cachePut])
      if env.CACHE_ENABLED = some "false" then
        analyze [Effect.hashComputed]
      else
        match Cache.get env imageHash with
        | some _ => (⟨200, true⟩, env, [Effect.hashComputed, Effect.cacheGet])
        | none => analyze [Effect.hashComputed, Effect.cacheGet]

end Handler

/-! # Theorems -/

/-! ### Helper lemmas for the association-list store -/

theorem lookup_alPut_self {α β : Type} [BEq α] [LawfulBEq α] (l : List (α × β)) (k : α) (v : β) :
    (RL.alPut l k v).lookup k = some v := by
  simp [RL.alPut, List.lookup]

theorem lookup_alDel_self {α β : Type} [BEq α] [LawfulBEq α] (l : List (α × β)) (k : α) :
    (RL.alDel l k).lookup k = none := by
  induction l with
  | nil => rfl
  | cons p rest ih =>
    by_cases h : p.1 = k
    · simpa [RL.alDel, List.filter_cons, h] using ih
    · have hne : (p.1 == k) = false := beq_eq_false_iff_ne.mpr h
      have hne' : (k == p.1) = false := beq_eq_false_iff_ne.mpr (Ne.symm h)
      simp only [RL.alDel, List.filter_cons, hne, Bool.not_false, if_pos, List.lookup, hne'] at ih ⊢
      exact ih

/-! ### Single-call characterizations of `checkRateLimit` -/

/-- A healthy store, no block, count strictly below the ceiling: the call is
allowed, the remaining quota is `requests - count - 1`, the reset time is the
next window boundary, and the counter is incremented. -/
theorem checkRateLimit_step_ok (cfg : RL.RateLimitConfig) (ip : String) (now : Nat)
    (kv : RL.KVState) (c : Nat)
    (hgb : kv.getBlockFails = false) (hgc : kv.getCountFails = false)
    (hpf : kv.putFails = false)
    (hb : kv.blocks.lookup ip = none)
    (hc : (kv.counters.lookup (ip, RL.windowStartOf cfg now)).getD 0 = c)
    (hlt : c < cfg.requests) :
    RL.checkRateLimit cfg ip now ⟨some kv⟩ =
      ({ allowed := true, remaining := cfg.requests - c - 1,
         resetTime := RL.windowStartOf cfg now + cfg.window * 1000 },
       ⟨some { kv with
          counters := RL.alPut kv.counters (ip, RL.windowStartOf cfg now) (c + 1) }⟩) := by
  simp only [RL.checkRateLimit, hgb, hb, hgc, hc, hpf, Bool.false_eq_true, if_false]
  rw [if_neg (by omega)]

/-- A healthy store, no block, count at or above the ceiling: the call is
denied with zero remaining, a block record is written with
`blockedAt = now` and `unblockTime = now + blockDuration·1000`, and the
reset time equals that unblock time. -/
theorem checkRateLimit_step_block (cfg : RL.RateLimitConfig) (ip : String) (now : Nat)
    (kv : RL.KVState) (c : Nat)
    (hgb : kv.getBlockFails = false) (hgc : kv.getCountFails = false)
    (hpf : kv.putFails = false)
    (hb : kv.blocks.lookup ip = none)
    (hc : (kv.counters.lookup (ip, RL.windowStartOf cfg now)).getD 0 = c)
    (hge : cfg.requests ≤ c) :
    RL.checkRateLimit cfg ip now ⟨some kv⟩ =
      ({ allowed := false, remaining := 0, resetTime := now + cfg.blockDuration * 1000 },
       ⟨some { kv with
          blocks := RL.alPut kv.blocks ip
            { blockedAt := now, unblockTime := now + cfg.blockDuration * 1000,
              reason := "rate_limit_exceeded" } }⟩) := by
  simp only [RL.checkRateLimit, hgb, hb, hgc, hc, hpf, Bool.false_eq_true, if_false]
  rw [if_pos hge]

/-- Invariant threaded through a same-window burst: after `i ≤ requests`
healthy calls the flags are untouched, no block exists for `ip`, and the
window counter reads `i`. -/
theorem runCalls_invariant (cfg : RL.RateLimitConfig) (ip : String) (t : Nat → Nat)
    (kv0 : RL.KVState)
    (hgb : kv0.getBlockFails = false) (hdf : kv0.deleteFails = false)
    (hgc : kv0.getCountFails = false) (hpf : kv0.putFails = false)
    (hb : kv0.blocks.lookup ip = none)
    (hc : (kv0.counters.lookup (ip, RL.windowStartOf cfg (t 0))).getD 0 = 0)
    (hwin : ∀ i, i ≤ cfg.requests →
      RL.windowStartOf cfg (t i) = RL.windowStartOf cfg (t 0)) :
    ∀ i, i ≤ cfg.requests →
      ∃ kvi : RL.KVState,
        RL.runCalls cfg ip t i ⟨some kv0⟩ = ⟨some kvi⟩ ∧
        kvi.getBlockFails = false ∧ kvi.deleteFails = false ∧
        kvi.getCountFails = false ∧ kvi.putFails = false ∧
        kvi.blocks.lookup ip = none ∧
        (kvi.counters.lookup (ip, RL.windowStartOf cfg (t 0))).getD 0 = i := by
  intro i
  induction i with
  | zero =>
    intro _
    exact ⟨kv0, rfl, hgb, hdf, hgc, hpf, hb, hc⟩
  | succ n ih =>
    intro hle
    obtain ⟨kvn, hrun, h1, h2, h3, h4, h5, h6⟩ := ih (Nat.le_of_succ_le hle)
    have hwn : RL.windowStartOf cfg (t n) = RL.windowStartOf cfg (t 0) :=
      hwin n (Nat.le_of_succ_le hle)
    have hstep := checkRateLimit_step_ok cfg ip (t n) kvn n h1 h3 h4 h5
      (by rw [hwn]; exact h6) (by omega)
    refine ⟨{ kvn with
        counters := RL.alPut kvn.counters (ip, RL.windowStartOf cfg (t n)) (n + 1) },
      ?_, h1, h2, h3, h4, h5, ?_⟩
    · show (RL.checkRateLimit cfg ip (t n) (RL.runCalls cfg ip t n ⟨some kv0⟩)).2 = _
      rw [hrun, hstep]
    · rw [← hwn, lookup_alPut_self]
      rfl

/-- C1: with no active block and a fresh window, sequential same-window calls
under ceiling `N` are allowed with remaining `N-1, N-2, …, 0`; the `(N+1)`-th
call is denied with remaining `0`, writes a block whose `blockedAt` is the
time of that call, and reports a reset time of
`blockedAt + blockDuration` (milliseconds). -/
theorem checkRateLimit_window_sequence
    (cfg : RL.RateLimitConfig) (ip : String) (t : Nat → Nat) (kv0 : RL.KVState)
    (hgb : kv0.getBlockFails = false) (hdf : kv0.deleteFails = false)
    (hgc : kv0.getCountFails = false) (hpf : kv0.putFails = false)
    (hb : kv0.blocks.lookup ip = none)
    (hc : kv0.counters.lookup (ip, RL.windowStartOf cfg (t 0)) = none)
    (hwin : ∀ i, i ≤ cfg.requests →
      RL.windowStartOf cfg (t i) = RL.windowStartOf cfg (t 0)) :
    (∀ i, i < cfg.requests →
      RL.callResult cfg ip t ⟨some kv0⟩ i =
        { allowed := true, remaining := cfg.requests - i - 1,
          resetTime := RL.windowStartOf cfg (t 0) + cfg.window * 1000 }) ∧
    (RL.callResult cfg ip t ⟨some kv0⟩ cfg.requests).allowed = false ∧
    (RL.callResult cfg ip t ⟨some kv0⟩ cfg.requests).remaining = 0 ∧
    ∃ bd : RL.BlockData,
      ((RL.runCalls cfg ip t (cfg.requests + 1) ⟨some kv0⟩).rateLimitKV.bind
        (fun kv => kv.blocks.lookup ip)) = some bd ∧
      bd.blockedAt = t cfg.requests ∧
      (RL.callResult cfg ip t ⟨some kv0⟩ cfg.requests).resetTime =
        bd.blockedAt + cfg.blockDuration * 1000 := by
  have hc0 : (kv0.counters.lookup (ip, RL.windowStartOf cfg (t 0))).getD 0 = 0 := by
    rw [hc]; rfl
  have hinv := runCalls_invariant cfg ip t kv0 hgb hdf hgc hpf hb hc0 hwin
  constructor
  · intro i hi
    obtain ⟨kvi, hrun, h1, h2, h3, h4, h5, h6⟩ := hinv i (Nat.le_of_lt hi)
    have hwi : RL.windowStartOf cfg (t i) = RL.windowStartOf cfg (t 0) :=
      hwin i (Nat.le_of_lt hi)
    have hstep := checkRateLimit_step_ok cfg ip (t i) kvi i h1 h3 h4 h5
      (by rw [hwi]; exact h6) hi
    show (RL.checkRateLimit cfg ip (t i) (RL.runCalls cfg ip t i ⟨some kv0⟩)).1 = _
    rw [hrun, hstep, hwi]
  · obtain ⟨kvN, hrun, h1, h2, h3, h4, h5, h6⟩ := hinv cfg.requests (Nat.le_refl _)
    have hwN : RL.windowStartOf cfg (t cfg.requests) = RL.windowStartOf cfg (t 0) :=
      hwin cfg.requests (Nat.le_refl _)
    have hstep := checkRateLimit_step_block cfg ip (t cfg.requests) kvN cfg.requests
      h1 h3 h4 h5 (by rw [hwN]; exact h6) (Nat.le_refl _)
    have hres : RL.callResult cfg ip t ⟨some kv0⟩ cfg.requests =
        { allowed := false, remaining := 0,
          resetTime := t cfg.requests + cfg.blockDuration * 1000 } := by
      show (RL.checkRateLimit cfg ip (t cfg.requests)
        (RL.runCalls cfg ip t cfg.requests ⟨some kv0⟩)).1 = _
      rw [hrun, hstep]
    refine ⟨by rw [hres], by rw [hres], ?_⟩
    refine ⟨{ blockedAt := t cfg.requests,
              unblockTime := t cfg.requests + cfg.blockDuration * 1000,
              reason := "rate_limit_exceeded" }, ?_, rfl, by rw [hres]⟩
    show ((RL.checkRateLimit cfg ip (t cfg.requests)
      (RL.runCalls cfg ip t cfg.requests ⟨some kv0⟩)).2.rateLimitKV.bind
        (fun kv => kv.blocks.lookup ip)) = _
    rw [hrun, hstep]
    simp [lookup_alPut_self]

/-- Witness for `checkRateLimit_window_sequence`: the spec scenario — client
`"1.2.3.4"`, ceiling 3, window 60 s, all calls at time 0 — calls 1–3 allowed
with remaining 2, 1, 0 and call 4 denied with remaining 0. -/
theorem checkRateLimit_window_sequence_witness :
    (RL.callResult ⟨3, 60, 1800⟩ "1.2.3.4" (fun _ => 0)
        ⟨some ⟨[], [], false, false, false, false⟩⟩ 0).remaining = 2 ∧
    (RL.callResult ⟨3, 60, 1800⟩ "1.2.3.4" (fun _ => 0)
        ⟨some ⟨[], [], false, false, false, false⟩⟩ 2).allowed = true ∧
    (RL.callResult ⟨3, 60, 1800⟩ "1.2.3.4" (fun _ => 0)
        ⟨some ⟨[], [], false, false, false, false⟩⟩ 3).allowed = false := by
  have h := checkRateLimit_window_sequence ⟨3, 60, 1800⟩ "1.2.3.4" (fun _ => 0)
    ⟨[], [], false, false, false, false⟩ rfl rfl rfl rfl rfl rfl
    (fun _ _ => rfl)
  refine ⟨?_, ?_, ?_⟩
  · rw [h.1 0 (by decide)]
    rfl
  · rw [h.1 2 (by decide)]
  · exact h.2.1

/-- C2 counterexample: an expired block is deleted, but the call that observes
the expiry is *not* necessarily allowed.  Here client `"1.2.3.4"` (ceiling 3)
has a block with `unblockTime = 1000` and a window counter already at 3; the
call at `now = 1000 ≥ unblockTime` deletes the old block, finds the counter at
the ceiling, writes a fresh block and is denied. -/
theorem checkRateLimit_unblock_not_allowed_cex :
    (RL.KVState.blocks
        ⟨[(("1.2.3.4", 0), 3)], [("1.2.3.4", ⟨0, 1000, "rate_limit_exceeded"⟩)],
         false, false, false, false⟩).lookup "1.2.3.4" =
      some ⟨0, 1000, "rate_limit_exceeded"⟩ ∧
    (1000 : Nat) ≤ 1000 ∧
    (RL.checkRateLimit ⟨3, 60, 1800⟩ "1.2.3.4" 1000
      ⟨some ⟨[(("1.2.3.4", 0), 3)], [("1.2.3.4", ⟨0, 1000, "rate_limit_exceeded"⟩)],
             false, false, false, false⟩⟩).1.allowed = false := by
  decide

/-- C2 (amended): with a healthy store and an active block, every call with
`now < unblockTime` is denied with remaining 0 and `resetTime = unblockTime`,
leaving the store untouched; the first call with `now ≥ unblockTime` deletes
the block record and is allowed **iff** the current window counter is below
the ceiling (otherwise a fresh block is written and the call is denied). -/
theorem checkRateLimit_blocked_behavior
    (cfg : RL.RateLimitConfig) (ip : String) (now : Nat) (kv : RL.KVState)
    (bd : RL.BlockData)
    (hgb : kv.getBlockFails = false) (hdf : kv.deleteFails = false)
    (hgc : kv.getCountFails = false) (hpf : kv.putFails = false)
    (hb : kv.blocks.lookup ip = some bd) :
    (now < bd.unblockTime →
      RL.checkRateLimit cfg ip now ⟨some kv⟩ =
        ({ allowed := false, remaining := 0, resetTime := bd.unblockTime }, ⟨some kv⟩)) ∧
    (bd.unblockTime ≤ now →
      ∃ kv' : RL.KVState,
        (RL.checkRateLimit cfg ip now ⟨some kv⟩).2 = ⟨some kv'⟩ ∧
        ((RL.checkRateLimit cfg ip now ⟨some kv⟩).1.allowed = true ↔
          (kv.counters.lookup (ip, RL.windowStartOf cfg now)).getD 0 < cfg.requests) ∧
        ((RL.checkRateLimit cfg ip now ⟨some kv⟩).1.allowed = true →
          kv'.blocks.lookup ip = none)) := by
  constructor
  · intro hlt
    simp only [RL.checkRateLimit, hgb, Bool.false_eq_true, if_false, hb]
    rw [if_pos hlt]
  · intro hge
    have hnlt : ¬ now < bd.unblockTime := by omega
    by_cases hcount :
        (kv.counters.lookup (ip, RL.windowStartOf cfg now)).getD 0 < cfg.requests
    · refine ⟨{ kv with
          blocks := RL.alDel kv.blocks ip,
          counters := RL.alPut kv.counters (ip, RL.windowStartOf cfg now)
            ((kv.counters.lookup (ip, RL.windowStartOf cfg now)).getD 0 + 1) }, ?_, ?_, ?_⟩
      · simp only [RL.checkRateLimit, hgb, Bool.false_eq_true, if_false, hb, hdf,
          hnlt, hgc, hpf]
        rw [if_neg (by omega)]
      · simp only [RL.checkRateLimit, hgb, Bool.false_eq_true, if_false, hb, hdf,
          hnlt, hgc, hpf]
        rw [if_neg (by omega)]
        simpa using hcount
      · intro _
        exact lookup_alDel_self kv.blocks ip
    · refine ⟨{ kv with
          blocks := RL.alPut (RL.alDel kv.blocks ip) ip
            { blockedAt := now, unblockTime := now + cfg.blockDuration * 1000,
              reason := "rate_limit_exceeded" } }, ?_, ?_, ?_⟩
      · simp only [RL.checkRateLimit, hgb, Bool.false_eq_true, if_false, hb, hdf,
          hnlt, hgc, hpf]
        rw [if_pos (by omega)]
      · simp only [RL.checkRateLimit, hgb, Bool.false_eq_true, if_false, hb, hdf,
          hnlt, hgc, hpf]
        rw [if_pos (by omega)]
        simpa using hcount
      · intro hcontra
        exfalso
        revert hcontra
        simp only [RL.checkRateLimit, hgb, Bool.false_eq_true, if_false, hb, hdf,
          hnlt, hgc, hpf]
        rw [if_pos (by omega)]
        simp

/-- Witness for `checkRateLimit_blocked_behavior`: an actively blocked client
(`unblockTime = 5000`, `now = 100`) is denied with reset time 5000; at
`now = 5000` with an empty window counter the block is deleted and the call is
allowed. -/
theorem checkRateLimit_blocked_behavior_witness :
    (RL.checkRateLimit ⟨3, 60, 1800⟩ "1.2.3.4" 100
        ⟨some ⟨[], [("1.2.3.4", ⟨0, 5000, "rate_limit_exceeded"⟩)],
               false, false, false, false⟩⟩).1 =
      { allowed := false, remaining := 0, resetTime := 5000 } ∧
    (RL.checkRateLimit ⟨3, 60, 1800⟩ "1.2.3.4" 5000
        ⟨some ⟨[], [("1.2.3.4", ⟨0, 5000, "rate_limit_exceeded"⟩)],
               false, false, false, false⟩⟩).1.allowed = true := by
  have h1 := checkRateLimit_blocked_behavior ⟨3, 60, 1800⟩ "1.2.3.4" 100
    ⟨[], [("1.2.3.4", ⟨0, 5000, "rate_limit_exceeded"⟩)], false, false, false, false⟩
    ⟨0, 5000, "rate_limit_exceeded"⟩ rfl rfl rfl rfl rfl
  have h2 := checkRateLimit_blocked_behavior ⟨3, 60, 1800⟩ "1.2.3.4" 5000
    ⟨[], [("1.2.3.4", ⟨0, 5000, "rate_limit_exceeded"⟩)], false, false, false, false⟩
    ⟨0, 5000, "rate_limit_exceeded"⟩ rfl rfl rfl rfl rfl
  constructor
  · rw [h1.1 (by decide)]
  · obtain ⟨kv', -, hiff, -⟩ := h2.2 (by decide)
    exact hiff.mpr (by decide)

/-- C3 counterexample: a store failure confined to the block-status read is
absorbed by the first `catch`, and the call proceeds to normal counting —
here the counter is at the ceiling, so the call is **denied**, not allowed
with full quota as the claim requires. -/
theorem checkRateLimit_partial_failure_denies_cex :
    (RL.KVState.getBlockFails
        ⟨[(("1.2.3.4", 0), 3)], [], true, false, false, false⟩) = true ∧
    (RL.checkRateLimit ⟨3, 60, 1800⟩ "1.2.3.4" 0
      ⟨some ⟨[(("1.2.3.4", 0), 3)], [], true, false, false, false⟩⟩).1.allowed = false := by
  decide

/-- C3 (amended): the limiter fails open — `allowed` with the full quota and
the store untouched — when the KV binding is absent, or when the store is
unreachable (both reads throw), or when the counter read throws, or when the
write phase throws; a failure confined to the block-status read alone is
merely logged, and the call can still be denied by the counter logic. -/
theorem checkRateLimit_fails_open (cfg : RL.RateLimitConfig) (ip : String) (now : Nat)
    (env : RL.Env) :
    (env.rateLimitKV = none →
      RL.checkRateLimit cfg ip now env =
        ({ allowed := true, remaining := cfg.requests, resetTime := now + cfg.window * 1000 },
         env)) ∧
    (∀ kv : RL.KVState, env.rateLimitKV = some kv →
      ((kv.getBlockFails = true ∧ kv.getCountFails = true) ∨
       (kv.getBlockFails = false ∧ kv.blocks.lookup ip = none ∧ kv.getCountFails = true) ∨
       (kv.getBlockFails = false ∧ kv.blocks.lookup ip = none ∧ kv.getCountFails = false ∧
        kv.putFails = true) →
      RL.checkRateLimit cfg ip now env =
        ({ allowed := true, remaining := cfg.requests, resetTime := now + cfg.window * 1000 },
         ⟨some kv⟩))) := by
  constructor
  · intro hnone
    cases env with
    | mk kvopt =>
      cases kvopt with
      | none => rfl
      | some kv => cases hnone
  · intro kv hsome hcase
    cases env with
    | mk kvopt =>
      cases kvopt with
      | none => cases hsome
      | some kv0 =>
        have hkv : kv0 = kv := Option.some.inj hsome
        subst hkv
        rcases hcase with ⟨h1, h2⟩ | ⟨h1, h2, h3⟩ | ⟨h1, h2, h3, h4⟩
        · simp only [RL.checkRateLimit, h1, if_true, h2]
        · simp only [RL.checkRateLimit, h1, Bool.false_eq_true, if_false, h2, h3, if_true]
        · simp only [RL.checkRateLimit, h1, Bool.false_eq_true, if_false, h2, h3, h4]
          split <;> rfl

/-- Witness for `checkRateLimit_fails_open`: with the KV binding absent, and
with a fully unreachable store, the call is allowed with the full quota of
the production configuration (100). -/
theorem checkRateLimit_fails_open_witness :
    (RL.checkRateLimit RL.RATE_LIMIT_CONFIG "1.2.3.4" 0 ⟨none⟩).1 =
      { allowed := true, remaining := 100, resetTime := 3600000 } ∧
    (RL.checkRateLimit RL.RATE_LIMIT_CONFIG "1.2.3.4" 0
        ⟨some ⟨[], [], true, true, true, true⟩⟩).1.remaining = 100 := by
  have h1 := (checkRateLimit_fails_open RL.RATE_LIMIT_CONFIG "1.2.3.4" 0 ⟨none⟩).1 rfl
  have h2 := (checkRateLimit_fails_open RL.RATE_LIMIT_CONFIG "1.2.3.4" 0
    ⟨some ⟨[], [], true, true, true, true⟩⟩).2 ⟨[], [], true, true, true, true⟩ rfl
    (Or.inl ⟨rfl, rfl⟩)
  constructor
  · rw [h1]
    rfl
  · rw [h2]
    rfl

/-- The documented SHA-256 test vector, pinning the embedded digest function:
`sha256("abc")` hex-encodes to the standard value. -/
theorem sha256_abc_vector :
    Hash.hexEncode (Hash.sha256 [0x61, 0x62, 0x63]) =
      "ba7816bf8f01cfea414140de5dae2223b00361a396177a9cb410ff61f20015ad" := by
  decide

theorem hexEncode_length (l : List Nat) : (Hash.hexEncode l).length = 2 * l.length := by
  simp only [Hash.hexEncode, String.length]
  induction l with
  | nil => rfl
  | cons x xs ih =>
    simp only [List.flatMap_cons, List.length_append, Hash.hexByteChars] at ih ⊢
    simp at ih ⊢
    omega

theorem sha256_length (msg : List Nat) : (Hash.sha256 msg).length = 32 := by
  simp [Hash.sha256, Hash.digestBytes, Hash.toBytesBE]

/-- C4: the content hash is the lowercase hex encoding of
`SHA-256(SHA-256(b) ‖ be32(len b))`; it is deterministic, and its output
always has the fixed length 64. -/
theorem calculateImageHash_spec (b : List Nat) :
    Hash.calculateImageHash b = specContentKey b ∧
    Hash.calculateImageHash b = Hash.calculateImageHash b ∧
    (Hash.calculateImageHash b).length = 64 := by
  refine ⟨rfl, rfl, ?_⟩
  show (Hash.hexEncode (Hash.sha256 (Hash.sha256 b ++ Hash.sizeBytesOf b.length))).length = 64
  rw [hexEncode_length, sha256_length]

/-! ### Image sniffer theorems -/

/-- C5 counterexample: on a RIFF/WEBP/`VP8 ` buffer with dimension bytes
`00 01` at offsets 26 and 28, the code returns `(2, 2)` — a big-endian read —
whereas the claimed little-endian read would give `(257, 257)`. -/
theorem getImageDimensions_webp_bigendian_cex :
    Img.getImageDimensions
      [0x52, 0x49, 0x46, 0x46, 0, 0, 0, 0, 0x57, 0x45, 0x42, 0x50,
       0x56, 0x50, 0x38, 0x20, 0, 0, 0, 0, 0, 0, 0, 0, 0, 0,
       0x00, 0x01, 0x00, 0x01] = (2, 2) ∧
    ((Img.claimLE16
        [0x52, 0x49, 0x46, 0x46, 0, 0, 0, 0, 0x57, 0x45, 0x42, 0x50,
         0x56, 0x50, 0x38, 0x20, 0, 0, 0, 0, 0, 0, 0, 0, 0, 0,
         0x00, 0x01, 0x00, 0x01] 26 &&& 0x3FFF) + 1,
     (Img.claimLE16
        [0x52, 0x49, 0x46, 0x46, 0, 0, 0, 0, 0x57, 0x45, 0x42, 0x50,
         0x56, 0x50, 0x38, 0x20, 0, 0, 0, 0, 0, 0, 0, 0, 0, 0,
         0x00, 0x01, 0x00, 0x01] 28 &&& 0x3FFF) + 1) = (257, 257) ∧
    ((2 : Nat), (2 : Nat)) ≠ ((257 : Nat), (257 : Nat)) := by
  decide

/-- C5 (amended): on a buffer carrying the RIFF, `WEBP` and `VP8 `
signatures, the sniffer reads the 16-bit fields at offsets 26 and 28
**big-endian** (the `DataView` default), masks off the top two bits (14-bit
fields) and adds 1 to each, returning those values as width and height. -/
theorem getImageDimensions_webp (b : List Nat) (w h : Nat)
    (h0 : b[0]? = some 0x52) (h1 : b[1]? = some 0x49)
    (h2 : b[2]? = some 0x46) (h3 : b[3]? = some 0x46)
    (h8 : b[8]? = some 0x57) (h9 : b[9]? = some 0x45)
    (h10 : b[10]? = some 0x42) (h11 : b[11]? = some 0x50)
    (h12 : b[12]? = some 0x56) (h13 : b[13]? = some 0x50)
    (h14 : b[14]? = some 0x38) (h15 : b[15]? = some 0x20)
    (hw : Img.getUint16? b 26 = some w) (hh : Img.getUint16? b 28 = some h) :
    Img.getImageDimensions b = ((w &&& 0x3FFF) + 1, (h &&& 0x3FFF) + 1) := by
  have hc0 : Img.getUint32? b 0 = some 0x52494646 := by
    simp [Img.getUint32?, h0, h1, h2, h3]
  have hc8 : Img.getUint32? b 8 = some 0x57454250 := by
    simp [Img.getUint32?, h8, h9, h10, h11]
  have hc12 : Img.getUint32? b 12 = some 0x56503820 := by
    simp [Img.getUint32?, h12, h13, h14, h15]
  simp [Img.getImageDimensions, Img.sniffCore, Img.getUint8?, hc0, hc8, hc12, h0, hw, hh]

/-- Witness for `getImageDimensions_webp`: a 30-byte VP8 buffer whose
dimension fields read `0x0140` and `0x00F0` big-endian yields `(321, 241)`. -/
theorem getImageDimensions_webp_witness :
    Img.getImageDimensions
      [0x52, 0x49, 0x46, 0x46, 0, 0, 0, 0, 0x57, 0x45, 0x42, 0x50,
       0x56, 0x50, 0x38, 0x20, 0, 0, 0, 0, 0, 0, 0, 0, 0, 0,
       0x01, 0x40, 0x00, 0xF0] = (321, 241) := by
  have h := getImageDimensions_webp
    [0x52, 0x49, 0x46, 0x46, 0, 0, 0, 0, 0x57, 0x45, 0x42, 0x50,
     0x56, 0x50, 0x38, 0x20, 0, 0, 0, 0, 0, 0, 0, 0, 0, 0,
     0x01, 0x40, 0x00, 0xF0] 0x140 0xF0
    rfl rfl rfl rfl rfl rfl rfl rfl rfl rfl rfl rfl rfl rfl
  rw [h]
  decide

/-- C6 counterexample: the fallback triple is not `(800, 600, unknown)` —
the dimension fallback is `(800, 600)`, but the format the service reports
for an unrecognized (here: empty) buffer is `'image/jpeg'`, not `'unknown'`. -/
theorem sniffer_fallback_format_cex :
    Img.getImageDimensions [] = (800, 600) ∧
    AI.detectImageFormat [] = "image/jpeg" ∧
    "image/jpeg" ≠ "unknown" := by
  decide

/-- C6 (amended): the sniffer is total; whenever a header read throws
(`sniffCore = none`) or no recognized signature matches
(`sniffCore = some none`) it returns the fallback `(800, 600)` — in
particular on the empty buffer, a truncated PNG and a truncated JPEG — and
the separately computed format string is never `"unknown"`. -/
theorem getImageDimensions_never_throws (b : List Nat) :
    (Img.sniffCore b = none → Img.getImageDimensions b = (800, 600)) ∧
    (Img.sniffCore b = some none → Img.getImageDimensions b = (800, 600)) ∧
    AI.detectImageFormat b ≠ "unknown" ∧
    Img.getImageDimensions [] = (800, 600) ∧
    Img.getImageDimensions [0x89, 0x50, 0x4E, 0x47, 0x0D, 0x0A, 0x1A, 0x0A] = (800, 600) ∧
    Img.getImageDimensions [0xFF, 0xD8, 0xFF] = (800, 600) := by
  refine ⟨?_, ?_, ?_, by decide, by decide, by decide⟩
  · intro hs
    simp [Img.getImageDimensions, hs]
  · intro hs
    simp [Img.getImageDimensions, hs]
  · unfold AI.detectImageFormat
    split_ifs <;> decide

/-- Witness for `getImageDimensions_never_throws`: a four-byte buffer with no
recognized signature falls back to `(800, 600)`. -/
theorem getImageDimensions_never_throws_witness :
    Img.getImageDimensions [0, 0, 0, 0] = (800, 600) :=
  (getImageDimensions_never_throws [0, 0, 0, 0]).2.1 (by decide)

/-! ### AI service theorems -/

/-- C7 counterexample: for a PNG-signature buffer the detected format is
`'image/png'`, but the `imageInfo.format` stored in the analysis result is
the hardcoded `'image/jpeg'`. -/
theorem imageInfo_format_hardcoded_cex :
    AI.detectImageFormat [0x89, 0x50, 0x4E, 0x47] = "image/png" ∧
    (AI.buildImageInfo [0x89, 0x50, 0x4E, 0x47]).format = "image/jpeg" ∧
    "image/jpeg" ≠ "image/png" := by
  decide

/-- C7 (amended): `detectImageFormat` returns the MIME string of the branch
taken (PNG → `image/png`, JPEG → `image/jpeg`, WebP → `image/webp`), but the
`format` field of the stored analysis metadata is always `'image/jpeg'`,
regardless of the buffer. -/
theorem detectImageFormat_branches (b : List Nat) :
    (4 ≤ b.length → b.getD 0 0 = 0x89 → b.getD 1 0 = 0x50 → b.getD 2 0 = 0x4E →
      b.getD 3 0 = 0x47 → AI.detectImageFormat b = "image/png") ∧
    (3 ≤ b.length → b.getD 0 0 = 0xFF → b.getD 1 0 = 0xD8 → b.getD 2 0 = 0xFF →
      AI.detectImageFormat b = "image/jpeg") ∧
    (12 ≤ b.length → b.getD 0 0 = 0x52 → b.getD 1 0 = 0x49 → b.getD 2 0 = 0x46 →
      b.getD 3 0 = 0x46 → b.getD 8 0 = 0x57 → b.getD 9 0 = 0x45 →
      b.getD 10 0 = 0x42 → b.getD 11 0 = 0x50 →
      AI.detectImageFormat b = "image/webp") ∧
    (AI.buildImageInfo b).format = "image/jpeg" := by
  refine ⟨?_, ?_, ?_, rfl⟩
  · intro hl e0 e1 e2 e3
    unfold AI.detectImageFormat
    rw [if_pos ⟨hl, e0, e1, e2, e3⟩]
  · intro hl e0 e1 e2
    unfold AI.detectImageFormat
    rw [if_neg (by rintro ⟨-, hx, -⟩; rw [e0] at hx; omega), if_pos ⟨hl, e0, e1, e2⟩]
  · intro hl e0 e1 e2 e3 e8 e9 e10 e11
    unfold AI.detectImageFormat
    rw [if_neg (by rintro ⟨-, hx, -⟩; rw [e0] at hx; omega),
      if_neg (by rintro ⟨-, hx, -⟩; rw [e0] at hx; omega),
      if_pos ⟨hl, e0, e1, e2, e3, e8, e9, e10, e11⟩]

/-- Witness for `detectImageFormat_branches`: a five-byte PNG-signature
buffer detects as `image/png` while its stored metadata format is
`image/jpeg`. -/
theorem detectImageFormat_branches_witness :
    AI.detectImageFormat [0x89, 0x50, 0x4E, 0x47, 0] = "image/png" ∧
    (AI.buildImageInfo [0x89, 0x50, 0x4E, 0x47, 0]).format = "image/jpeg" := by
  have h := detectImageFormat_branches [0x89, 0x50, 0x4E, 0x47, 0]
  exact ⟨h.1 (by decide) rfl rfl rfl rfl, h.2.2.2⟩

/-- The detection loop is a filter-then-map over the raw detections. -/
theorem collectElements_foldl (width height : Nat) (dets : List AI.YoloWorldDetection)
    (acc : List AI.DetectedElement) :
    dets.foldl (fun acc d =>
      let bbox := AI.normalizeBBox width height d
      if AI.validBBox bbox then
        acc ++ [{ type := d.cls, confidence := d.score, bbox := bbox }]
      else
        acc) acc =
    acc ++ (dets.filter (fun d => AI.validBBox (AI.normalizeBBox width height d))).map
      (fun d => { type := d.cls, confidence := d.score,
                  bbox := AI.normalizeBBox width height d }) := by
  induction dets generalizing acc with
  | nil => simp
  | cons d rest ih =>
    by_cases hv : AI.validBBox (AI.normalizeBBox width height d) = true
    · simp only [List.foldl_cons, List.filter_cons, hv, if_true, List.map_cons]
      rw [ih]
      simp [List.append_assoc]
    · simp only [Bool.not_eq_true] at hv
      simp only [List.foldl_cons, List.filter_cons, hv, Bool.false_eq_true, if_false]
      rw [ih]

/-- C8: normalization keeps exactly the detections whose normalized bbox
satisfies `x ≥ 0`, `y ≥ 0`, `width > 0`, `height > 0`, `x+width ≤ 1`,
`y+height ≤ 1` (discarding the rest, in order), and substitutes exactly one
whole-frame `scene` fallback with confidence `0.5` when none survive. -/
theorem elementsWithFallback_normalization (width height : Nat)
    (dets : List AI.YoloWorldDetection) :
    AI.elementsWithFallback width height dets =
      (if (dets.filter (fun d =>
            decide (0 ≤ (AI.normalizeBBox width height d).x ∧
              0 ≤ (AI.normalizeBBox width height d).y ∧
              0 < (AI.normalizeBBox width height d).width ∧
              0 < (AI.normalizeBBox width height d).height ∧
              (AI.normalizeBBox width height d).x +
                (AI.normalizeBBox width height d).width ≤ 1 ∧
              (AI.normalizeBBox width height d).y +
                (AI.normalizeBBox width height d).height ≤ 1))) = [] then
        [{ type := "scene", confidence := 1/2, bbox := ⟨0, 0, 1, 1⟩ }]
      else
        (dets.filter (fun d =>
            decide (0 ≤ (AI.normalizeBBox width height d).x ∧
              0 ≤ (AI.normalizeBBox width height d).y ∧
              0 < (AI.normalizeBBox width height d).width ∧
              0 < (AI.normalizeBBox width height d).height ∧
              (AI.normalizeBBox width height d).x +
                (AI.normalizeBBox width height d).width ≤ 1 ∧
              (AI.normalizeBBox width height d).y +
                (AI.normalizeBBox width height d).height ≤ 1))).map
          (fun d => { type := d.cls, confidence := d.score,
                      bbox := AI.normalizeBBox width height d })) := by
  have hpred : (fun d => AI.validBBox (AI.normalizeBBox width height d)) =
      (fun d => decide (0 ≤ (AI.normalizeBBox width height d).x ∧
        0 ≤ (AI.normalizeBBox width height d).y ∧
        0 < (AI.normalizeBBox width height d).width ∧
        0 < (AI.normalizeBBox width height d).height ∧
        (AI.normalizeBBox width height d).x +
          (AI.normalizeBBox width height d).width ≤ 1 ∧
        (AI.normalizeBBox width height d).y +
          (AI.normalizeBBox width height d).height ≤ 1)) := by
    funext d
    simp [AI.validBBox, Bool.decide_and, Bool.and_assoc]
  unfold AI.elementsWithFallback AI.collectElements
  rw [collectElements_foldl, List.nil_append, ← hpred]
  cases hmap : (dets.filter
      (fun d => AI.validBBox (AI.normalizeBBox width height d))).map
      (fun d => ({ type := d.cls, confidence := d.score,
                   bbox := AI.normalizeBBox width height d } : AI.DetectedElement)) with
  | nil =>
    have hfil : dets.filter (fun d => AI.validBBox (AI.normalizeBBox width height d)) = [] :=
      List.map_eq_nil_iff.mp hmap
    simp [hmap, hfil, AI.fallbackElement]
  | cons x xs =>
    have hfil : dets.filter (fun d => AI.validBBox (AI.normalizeBBox width height d)) ≠ [] := by
      intro hcontra
      rw [hcontra] at hmap
      cases hmap
    simp [hmap, hfil, List.isEmpty_iff]

/-! ### Handler and cache-service theorems -/

/-- C9: a missing upload, an over-ceiling size, or an unsupported MIME type
is rejected with a 400 client error before any hashing, cache access or
inference work: the store state is returned unchanged and the effect trace is
empty. -/
theorem handleImageAnalysis_rejects_before_work
    (env : Cache.CacheEnv) (maxSize : Nat) (file? : Option Handler.FileModel)
    (aiOutcome : Except String (List AI.DetectedElement × AI.ImageInfo))
    (pt ts : String)
    (hrej : file? = none ∨ ∃ f, file? = some f ∧
      (maxSize < f.bytes.length ∨ ¬ f.mime ∈ Handler.validTypes)) :
    Handler.handleImageAnalysis env maxSize file? aiOutcome pt ts =
      (⟨400, false⟩, env, []) := by
  rcases hrej with hnone | ⟨f, hf, hbad⟩
  · rw [hnone]
    rfl
  · have hval : (Handler.validateImage f maxSize).valid = false := by
      unfold Handler.validateImage
      rcases hbad with hsize | hmime
      · rw [if_pos hsize]
      · by_cases hsize : maxSize < f.bytes.length
        · rw [if_pos hsize]
        · have hcont : Handler.validTypes.contains f.mime = false := by
            rw [← Bool.not_eq_true]
            intro hcontra
            exact hmime (List.elem_iff.mp hcontra)
          rw [if_neg hsize, if_pos (by rw [hcont]; rfl)]
    rw [hf]
    simp [Handler.handleImageAnalysis, hval]

/-- Witness for `handleImageAnalysis_rejects_before_work`: an upload with
MIME type `text/plain` is rejected with a 400, no state change and no
effects. -/
theorem handleImageAnalysis_rejects_witness :
    Handler.handleImageAnalysis ⟨none, none⟩ 10
      (some ⟨[1, 2, 3], "text/plain"⟩)
      (Except.ok ([], ⟨800, 600, "image/jpeg", 3⟩)) "" "" =
      (⟨400, false⟩, ⟨none, none⟩, []) :=
  handleImageAnalysis_rejects_before_work ⟨none, none⟩ 10
    (some ⟨[1, 2, 3], "text/plain"⟩) (Except.ok ([], ⟨800, 600, "image/jpeg", 3⟩)) "" ""
    (Or.inr ⟨⟨[1, 2, 3], "text/plain"⟩, rfl, Or.inr (by decide)⟩)

/-- The fuel-bounded pagination collects exactly the suffix from the cursor
once the fuel covers the remaining pages. -/
theorem listLoopAux_drop (ks : List String) :
    ∀ fuel cursor, ks.length ≤ cursor + 1000 * fuel →
      Cache.listLoopAux fuel ks cursor = ks.drop cursor := by
  intro fuel
  induction fuel with
  | zero =>
    intro cursor hle
    simp only [Cache.listLoopAux]
    exact (List.drop_eq_nil_of_le (by omega)).symm
  | succ n ih =>
    intro cursor hle
    simp only [Cache.listLoopAux]
    by_cases hc : cursor + 1000 < ks.length
    · rw [if_pos hc, ih (cursor + 1000) (by omega)]
      have hdd : ks.drop (cursor + 1000) = (ks.drop cursor).drop 1000 := by
        rw [List.drop_drop, Nat.add_comm]
      rw [hdd, List.take_append_drop]
    · rw [if_neg hc]
      have hlen : (ks.drop cursor).length ≤ 1000 := by
        rw [List.length_drop]
        omega
      rw [List.take_of_length_le hlen]

/-- The do/while pagination of `listKeys` returns the whole key list. -/
theorem listLoop_eq_self (ks : List String) : Cache.listLoop ks = ks := by
  have h := listLoopAux_drop ks (ks.length + 1) 0 (by omega)
  simpa [Cache.listLoop] using h

/-- A healthy `listKeys` returns exactly the prefixed keys of the store. -/
theorem listKeys_healthy (env : Cache.CacheEnv) (kv : Cache.CacheKV)
    (hkv : env.imageCacheKV = some kv) (hlf : kv.listFails = false) :
    Cache.listKeys env = Cache.kvKeysWithPrefix kv := by
  simp [Cache.listKeys, hkv, hlf, listLoop_eq_self]

/-- C10 counterexample: with the binding present, a throwing list operation
is absorbed inside `listKeys` (which returns `[]`), so `clear` deletes
nothing and reports `true` — not `false` as the claim requires. -/
theorem cacheService_clear_true_on_list_error_cex :
    (Cache.CacheKV.listFails
      ⟨[("image-analysis:k", ⟨[], "", "", "", false, ⟨0, 0, "", 0⟩⟩)],
       false, false, false, true⟩) = true ∧
    (Cache.clear ⟨none, some
      ⟨[("image-analysis:k", ⟨[], "", "", "", false, ⟨0, 0, "", 0⟩⟩)],
       false, false, false, true⟩⟩).1 = true := by
  constructor
  · rfl
  · rfl

/-- C10 (amended): every cache operation is total over store failures.  With
the binding absent: `get = none`, `set`/`delete`/`clear` return `false` with
no state change, `listKeys = []`, `getStats = ⟨0, []⟩`.  With the binding
present: a throwing get yields `none`; a throwing put yields `(false, env)`;
a throwing delete yields `(false, env)`; a throwing list yields
`listKeys = []`, `getStats = ⟨0, []⟩` — and `clear` then succeeds vacuously
with `true`; `clear` yields `false` only when a delete throws while the key
listing is non-empty. -/
theorem cacheService_degraded (env : Cache.CacheEnv) (key : String)
    (value : AI.AnalysisResult) :
    (env.imageCacheKV = none →
      Cache.get env key = none ∧
      Cache.set env key value = (false, env) ∧
      Cache.delete env key = (false, env) ∧
      Cache.clear env = (false, env) ∧
      Cache.listKeys env = [] ∧
      Cache.getStats env = ⟨0, []⟩) ∧
    (∀ kv : Cache.CacheKV, env.imageCacheKV = some kv →
      (kv.getFails = true → Cache.get env key = none) ∧
      (kv.putFails = true → Cache.set env key value = (false, env)) ∧
      (kv.deleteFails = true → Cache.delete env key = (false, env)) ∧
      (kv.listFails = true →
        Cache.listKeys env = [] ∧
        Cache.getStats env = ⟨0, []⟩ ∧
        (Cache.clear env).1 = true) ∧
      (kv.listFails = false → kv.deleteFails = true →
        Cache.kvKeysWithPrefix kv ≠ [] → (Cache.clear env).1 = false)) := by
  constructor
  · intro hnone
    refine ⟨?_, ?_, ?_, ?_, ?_, ?_⟩
    · simp [Cache.get, hnone]
    · simp [Cache.set, hnone]
    · simp [Cache.delete, hnone]
    · simp [Cache.clear, hnone]
    · simp [Cache.listKeys, hnone]
    · simp [Cache.getStats, hnone]
  · intro kv hkv
    refine ⟨?_, ?_, ?_, ?_, ?_⟩
    · intro hg
      simp [Cache.get, hkv, hg]
    · intro hp
      simp [Cache.set, hkv, hp]
    · intro hd
      simp [Cache.delete, hkv, hd]
    · intro hl
      have hlk : Cache.listKeys env = [] := by
        simp [Cache.listKeys, hkv, hl]
      refine ⟨hlk, ?_, ?_⟩
      · simp [Cache.getStats, hkv, hlk]
      · simp [Cache.clear, hkv, hlk]
    · intro hl hd hne
      have hlk : Cache.listKeys env = Cache.kvKeysWithPrefix kv :=
        listKeys_healthy env kv hkv hl
      have hemp : (Cache.listKeys env).isEmpty = false := by
        rw [hlk]
        cases hkk : Cache.kvKeysWithPrefix kv with
        | nil => exact absurd hkk hne
        | cons a as => rfl
      simp [Cache.clear, hkv, hemp, hd]

/-- Witness for `cacheService_degraded`: with the binding absent `get` is
`none`; with an unreachable store `delete` reports `false` while `clear`
(whose key listing is absorbed to empty) reports `true`. -/
theorem cacheService_degraded_witness :
    Cache.get ⟨none, none⟩ "k" = none ∧
    (Cache.delete ⟨none, some ⟨[], true, true, true, true⟩⟩ "k").1 = false ∧
    (Cache.clear ⟨none, some ⟨[], true, true, true, true⟩⟩).1 = true := by
  have h1 := (cacheService_degraded ⟨none, none⟩ "k"
    ⟨[], "", "", "", false, ⟨0, 0, "", 0⟩⟩).1 rfl
  have h2 := (cacheService_degraded ⟨none, some ⟨[], true, true, true, true⟩⟩ "k"
    ⟨[], "", "", "", false, ⟨0, 0, "", 0⟩⟩).2 ⟨[], true, true, true, true⟩ rfl
  refine ⟨h1.1, ?_, (h2.2.2.2.1 rfl).2.2⟩
  rw [h2.2.2.1 rfl]

end Spec2Proof
